import Mathlib

/-!
Verification of the schedule-conflict detection engine of the scheduling
backend (`src/backend/src/services/conflictDetection.ts`).

The TypeScript module is embedded shallowly:

* A JavaScript `Date` is modelled as an absolute day number since the Unix
  epoch (1970-01-01, a Thursday) together with the milliseconds elapsed in
  that day.  The source only ever uses `getDay`, `setHours(0,0,0,0)`,
  `setHours(23,59,59,999)` and `setDate(getDate() + k)`; the last one shifts
  the absolute day by `k` (JavaScript normalises month under/overflow), so
  this pair of numbers captures every `Date` operation the module performs.
* The Prisma store is modelled as an immutable snapshot: the lists of
  schedule entries, per-weekday availability records and workers that the
  queries in the module filter.  Each `findMany`/`findUnique` call becomes a
  pure function over the snapshot.
* `HH:MM` wall-clock strings are kept as strings, and `timeToMinutes`
  mirrors `split(':').map(Number)` for well-formed input.
* JavaScript floating-point hour totals are modelled as exact rationals;
  `toFixed(1)` is modelled as rounding half away from zero to one decimal
  (the strings produced this way only appear in messages, which no rule
  inspects).
-/

namespace ConflictDetection

/-- A JavaScript `Date`: days since the epoch plus milliseconds into the day. -/
structure JSDate where
  day : Int
  msOfDay : Int
deriving DecidableEq

/-- Epoch timestamp in milliseconds, as `Date.prototype.getTime` would return. -/
def toMillis (d : JSDate) : Int :=
  d.day * 86400000 + d.msOfDay

/-- JavaScript `Date.prototype.getDay`: 0 = Sunday .. 6 = Saturday.  Epoch day 0
was a Thursday (4). -/
def getDay (d : JSDate) : Int :=
  (d.day + 4) % 7

/-- Splits a character list at each colon, mirroring `String.prototype.split(':')`. -/
def splitOnColon : List Char → List Char → List (List Char)
  | [], cur => [cur.reverse]
  | c :: rest, cur =>
    if c = ':' then cur.reverse :: splitOnColon rest [] else splitOnColon rest (c :: cur)

/-- JavaScript `Number` on a digit string (the only inputs the contract allows). -/
def digitsToNat (cs : List Char) : Nat :=
  cs.foldl (fun n c => n * 10 + (c.toNat - 48)) 0

/-- Source `timeToMinutes`: `const [hours, minutes] = time.split(':').map(Number);
return hours * 60 + minutes`.  Destructuring takes the first two components. -/
def timeToMinutes (t : String) : Nat :=
  let parts := (splitOnColon t.data []).map digitsToNat
  parts.getD 0 0 * 60 + parts.getD 1 0

/-- Source `calculateHours`: `(endMinutes - startMinutes) / 60` (may be negative). -/
def calculateHours (startTime endTime : String) : ℚ :=
  ((timeToMinutes endTime : ℚ) - (timeToMinutes startTime : ℚ)) / 60

/-- Result record of `getWeekBounds`. -/
structure WeekBounds where
  startOfWeek : JSDate
  endOfWeek : JSDate
deriving DecidableEq

/-- Source `getWeekBounds`: `diff = d.getDate() - dayOfWeek + (dayOfWeek === 0 ? -6 : 1)`,
`startOfWeek.setDate(diff); startOfWeek.setHours(0,0,0,0)`, then
`endOfWeek.setDate(startOfWeek.getDate() + 6); endOfWeek.setHours(23,59,59,999)`.
`setDate(getDate() + k)` shifts the absolute day by `k`, so `startOfWeek` is the
input day shifted by `-dayOfWeek + (dayOfWeek = 0 ? -6 : 1)` at midnight, and
`endOfWeek` is six days later at 23:59:59.999. -/
def getWeekBounds (date : JSDate) : WeekBounds :=
  let dayOfWeek := getDay date
  let startOfWeek : JSDate :=
    { day := date.day - dayOfWeek + (if dayOfWeek = 0 then -6 else 1), msOfDay := 0 }
  let endOfWeek : JSDate := { day := startOfWeek.day + 6, msOfDay := 86399999 }
  { startOfWeek := startOfWeek, endOfWeek := endOfWeek }

/-- A persisted `ScheduleEntry` row (the fields the evaluator reads). -/
structure ScheduleEntry where
  id : String
  workerId : String
  date : JSDate
  startTime : String
  endTime : String
deriving DecidableEq

/-- A `WorkerAvailability` row; the store enforces at most one per
(workerId, dayOfWeek) pair. -/
structure WorkerAvailability where
  workerId : String
  dayOfWeek : Int
  startTime : String
  endTime : String
deriving DecidableEq

/-- A `Worker` row (only the hour cap is selected by the evaluator). -/
structure Worker where
  id : String
  maxHoursPerWeek : ℚ
deriving DecidableEq

/-- The data snapshot the evaluator's queries run against. -/
structure Snapshot where
  scheduleEntries : List ScheduleEntry
  workerAvailabilities : List WorkerAvailability
  workers : List Worker
deriving DecidableEq

/-- The `prisma.scheduleEntry.findMany` calls: entries of the worker whose date
lies in `[lo, hi]` (timestamps), minus the optional excluded id. -/
def findEntriesInRange (db : Snapshot) (workerId : String) (lo hi : JSDate)
    (excludeEntryId : Option String) : List ScheduleEntry :=
  db.scheduleEntries.filter (fun e =>
    e.workerId == workerId &&
    decide (toMillis lo ≤ toMillis e.date) &&
    decide (toMillis e.date ≤ toMillis hi) &&
    match excludeEntryId with
    | some ex => e.id != ex
    | none => true)

/-- The `prisma.workerAvailability.findUnique` call on the compound key. -/
def findAvailability (db : Snapshot) (workerId : String) (dayOfWeek : Int) :
    Option WorkerAvailability :=
  db.workerAvailabilities.find? (fun a => a.workerId == workerId && a.dayOfWeek == dayOfWeek)

/-- The `prisma.worker.findUnique` call selecting `maxHoursPerWeek`. -/
def findWorker (db : Snapshot) (workerId : String) : Option Worker :=
  db.workers.find? (fun w => w.id == workerId)

/-- The three conflict kinds (`ConflictType` in the source). -/
inductive ConflictType where
  | TIME_OVERLAP
  | UNAVAILABLE
  | MAX_HOURS_EXCEEDED
deriving DecidableEq

/-- Severity of a finding. -/
inductive Severity where
  | error
  | warning
deriving DecidableEq

/-- The optional `details` object of a `ConflictDetail`. -/
structure ConflictDetails where
  existingEntryId : Option String
  existingStart : Option String
  existingEnd : Option String
  availableStart : Option String
  availableEnd : Option String
  currentWeekHours : Option ℚ
  maxHoursPerWeek : Option ℚ
  newEntryHours : Option ℚ
deriving DecidableEq

/-- One finding produced by the evaluator. -/
structure ConflictDetail where
  type : ConflictType
  message : String
  severity : Severity
  details : Option ConflictDetails
deriving DecidableEq

/-- Aggregate result of one evaluation. -/
structure ConflictResult where
  hasConflict : Bool
  hasWarning : Bool
  conflicts : List ConflictDetail
deriving DecidableEq

/-- JavaScript `toFixed(1)` on the rationals produced here, modelled as rounding
half away from zero to one decimal place. -/
def toFixed1 (q : ℚ) : String :=
  let tenths : Int := Int.floor (|q| * 10 + 1 / 2)
  (if q < 0 then "-" else "") ++ toString (tenths / 10) ++ "." ++ toString (tenths % 10)

/-- Rule A finding for one overlapping entry (source lines 96-105). -/
def overlapDetail (entry : ScheduleEntry) : ConflictDetail :=
  { type := ConflictType.TIME_OVERLAP
    message := "Sovrapposizione con programmazione esistente (" ++ entry.startTime ++
      "-" ++ entry.endTime ++ ")"
    severity := Severity.error
    details := some
      { existingEntryId := some entry.id
        existingStart := some entry.startTime
        existingEnd := some entry.endTime
        availableStart := none
        availableEnd := none
        currentWeekHours := none
        maxHoursPerWeek := none
        newEntryHours := none } }

/-- The three-disjunct overlap test of source lines 90-93. -/
def hasOverlap (newStart newEnd existingStart existingEnd : Nat) : Bool :=
  (decide (newStart ≥ existingStart) && decide (newStart < existingEnd)) ||
  (decide (newEnd > existingStart) && decide (newEnd ≤ existingEnd)) ||
  (decide (newStart ≤ existingStart) && decide (newEnd ≥ existingEnd))

/-- Rule B finding when the declared window is violated (source lines 126-134). -/
def unavailableErrorDetail (availability : WorkerAvailability) : ConflictDetail :=
  { type := ConflictType.UNAVAILABLE
    message := "Orario fuori dalla disponibilita del lavoratore (" ++
      availability.startTime ++ "-" ++ availability.endTime ++ ")"
    severity := Severity.error
    details := some
      { existingEntryId := none
        existingStart := none
        existingEnd := none
        availableStart := some availability.startTime
        availableEnd := some availability.endTime
        currentWeekHours := none
        maxHoursPerWeek := none
        newEntryHours := none } }

/-- Localised day names, index 0 = Sunday (source line 138). -/
def dayNames : List String :=
  ["Domenica", "Lunedi", "Martedi", "Mercoledi", "Giovedi", "Venerdi", "Sabato"]

/-- Rule B finding when no availability record exists (source lines 139-143). -/
def unavailableWarningDetail (dayOfWeek : Int) : ConflictDetail :=
  { type := ConflictType.UNAVAILABLE
    message := "Nessuna disponibilita definita per " ++ dayNames.getD dayOfWeek.toNat ""
    severity := Severity.warning
    details := none }

/-- Rule C finding when the projected weekly total exceeds the cap
(source lines 175-184). -/
def maxHoursDetail (totalWeekHours cap newEntryHours : ℚ) : ConflictDetail :=
  { type := ConflictType.MAX_HOURS_EXCEEDED
    message := "Superate le ore settimanali massime (" ++
      toFixed1 (totalWeekHours + newEntryHours) ++ "/" ++ toString cap ++ "h)"
    severity := Severity.warning
    details := some
      { existingEntryId := none
        existingStart := none
        existingEnd := none
        availableStart := none
        availableEnd := none
        currentWeekHours := some totalWeekHours
        maxHoursPerWeek := some cap
        newEntryHours := some newEntryHours } }

/-- `setHours(0, 0, 0, 0)` applied to a copy of the date. -/
def startOfDay (d : JSDate) : JSDate :=
  { day := d.day, msOfDay := 0 }

/-- `setHours(23, 59, 59, 999)` applied to a copy of the date. -/
def endOfDay (d : JSDate) : JSDate :=
  { day := d.day, msOfDay := 86399999 }

/-- Rule A (source lines 66-107): one `TIME_OVERLAP` error per overlapping
same-day entry, in fetch order. -/
def overlapConflicts (db : Snapshot) (workerId : String) (dateObj : JSDate)
    (startTime endTime : String) (excludeEntryId : Option String) : List ConflictDetail :=
  let existingEntries := findEntriesInRange db workerId (startOfDay dateObj) (endOfDay dateObj)
    excludeEntryId
  let newStart := timeToMinutes startTime
  let newEnd := timeToMinutes endTime
  existingEntries.filterMap (fun entry =>
    if hasOverlap newStart newEnd (timeToMinutes entry.startTime) (timeToMinutes entry.endTime)
    then some (overlapDetail entry) else none)

/-- Rule B (source lines 109-144): availability check for the candidate weekday. -/
def availabilityConflicts (db : Snapshot) (workerId : String) (dateObj : JSDate)
    (startTime endTime : String) : List ConflictDetail :=
  let newStart := timeToMinutes startTime
  let newEnd := timeToMinutes endTime
  let dayOfWeek := getDay dateObj
  match findAvailability db workerId dayOfWeek with
  | some availability =>
    if decide (newStart < timeToMinutes availability.startTime) ||
       decide (newEnd > timeToMinutes availability.endTime)
    then [unavailableErrorDetail availability] else []
  | none => [unavailableWarningDetail dayOfWeek]

/-- The week total of source lines 166-169: sum of `calculateHours` over the
worker's entries inside `getWeekBounds dateObj`, minus the excluded id. -/
def weekTotalHours (db : Snapshot) (workerId : String) (dateObj : JSDate)
    (excludeEntryId : Option String) : ℚ :=
  let wb := getWeekBounds dateObj
  let weekEntries := findEntriesInRange db workerId wb.startOfWeek wb.endOfWeek excludeEntryId
  weekEntries.foldl (fun acc entry => acc + calculateHours entry.startTime entry.endTime) 0

/-- Rule C (source lines 146-186): weekly hour-cap check. -/
def maxHoursConflicts (db : Snapshot) (workerId : String) (dateObj : JSDate)
    (startTime endTime : String) (excludeEntryId : Option String) : List ConflictDetail :=
  match findWorker db workerId with
  | some worker =>
    let totalWeekHours := weekTotalHours db workerId dateObj excludeEntryId
    let newEntryHours := calculateHours startTime endTime
    let projectedHours := totalWeekHours + newEntryHours
    if decide (projectedHours > worker.maxHoursPerWeek)
    then [maxHoursDetail totalWeekHours worker.maxHoursPerWeek newEntryHours] else []
  | none => []

/-- Source `checkScheduleConflicts`: runs the three rules in order, concatenates
their findings and derives the two booleans (source lines 56-196). -/
def checkScheduleConflicts (db : Snapshot) (workerId : String) (dateObj : JSDate)
    (startTime endTime : String) (excludeEntryId : Option String) : ConflictResult :=
  let conflicts :=
    overlapConflicts db workerId dateObj startTime endTime excludeEntryId ++
    availabilityConflicts db workerId dateObj startTime endTime ++
    maxHoursConflicts db workerId dateObj startTime endTime excludeEntryId
  { hasConflict := conflicts.any (fun c => decide (c.severity = Severity.error))
    hasWarning := conflicts.any (fun c => decide (c.severity = Severity.warning))
    conflicts := conflicts }

/-- A candidate entry of the bulk evaluator's input. -/
structure Candidate where
  workerId : String
  date : JSDate
  startTime : String
  endTime : String
deriving DecidableEq

/-- One element of the bulk evaluator's output. -/
structure BulkConflict where
  index : Nat
  result : ConflictResult
deriving DecidableEq

/-- Evaluation of one bulk candidate: `checkScheduleConflicts` with no
`excludeEntryId` (source lines 210-215). -/
def evalCandidate (db : Snapshot) (c : Candidate) : ConflictResult :=
  checkScheduleConflicts db c.workerId c.date c.startTime c.endTime none

/-- The filter applied to each bulk result (source line 217). -/
def flagged (r : ConflictResult) : Bool :=
  r.hasConflict || r.hasWarning

/-- The `for` loop of `checkBulkScheduleConflicts`, with `i` the index of the
first remaining candidate. -/
def bulkLoop (db : Snapshot) : Nat → List Candidate → List BulkConflict
  | _, [] => []
  | i, entry :: rest =>
    let result := evalCandidate db entry
    if flagged result
    then { index := i, result := result } :: bulkLoop db (i + 1) rest
    else bulkLoop db (i + 1) rest

/-- Source `checkBulkScheduleConflicts` (lines 198-223). -/
def checkBulkScheduleConflicts (db : Snapshot) (entries : List Candidate) :
    List BulkConflict :=
  bulkLoop db 0 entries

/-- The Rule A findings of a result: its `TIME_OVERLAP`-typed details, in order. -/
def overlapFindings (db : Snapshot) (workerId : String) (dateObj : JSDate)
    (startTime endTime : String) (excludeEntryId : Option String) : List ConflictDetail :=
  (checkScheduleConflicts db workerId dateObj startTime endTime excludeEntryId).conflicts.filter
    (fun c => decide (c.type = ConflictType.TIME_OVERLAP))

/-- The Rule B findings of a result: its `UNAVAILABLE`-typed details, in order. -/
def unavailableFindings (db : Snapshot) (workerId : String) (dateObj : JSDate)
    (startTime endTime : String) (excludeEntryId : Option String) : List ConflictDetail :=
  (checkScheduleConflicts db workerId dateObj startTime endTime excludeEntryId).conflicts.filter
    (fun c => decide (c.type = ConflictType.UNAVAILABLE))

/-- The Rule C findings of a result: its `MAX_HOURS_EXCEEDED`-typed details, in order. -/
def maxHoursFindings (db : Snapshot) (workerId : String) (dateObj : JSDate)
    (startTime endTime : String) (excludeEntryId : Option String) : List ConflictDetail :=
  (checkScheduleConflicts db workerId dateObj startTime endTime excludeEntryId).conflicts.filter
    (fun c => decide (c.type = ConflictType.MAX_HOURS_EXCEEDED))

lemma filterMap_if {α β : Type} (p : α → Bool) (f : α → β) (l : List α) :
    l.filterMap (fun a => if p a then some (f a) else none) = (l.filter p).map f := by
  induction l with
  | nil => rfl
  | cons a l ih =>
    by_cases h : p a <;> simp [List.filterMap_cons, List.filter_cons, h, ih]

lemma overlapConflicts_eq_map_filter (db : Snapshot) (workerId : String) (dateObj : JSDate)
    (startTime endTime : String) (excludeEntryId : Option String) :
    overlapConflicts db workerId dateObj startTime endTime excludeEntryId =
      ((findEntriesInRange db workerId (startOfDay dateObj) (endOfDay dateObj)
        excludeEntryId).filter (fun e =>
          hasOverlap (timeToMinutes startTime) (timeToMinutes endTime)
            (timeToMinutes e.startTime) (timeToMinutes e.endTime))).map overlapDetail := by
  unfold overlapConflicts
  exact filterMap_if ..

lemma conflicts_eq (db : Snapshot) (workerId : String) (dateObj : JSDate)
    (startTime endTime : String) (excludeEntryId : Option String) :
    (checkScheduleConflicts db workerId dateObj startTime endTime excludeEntryId).conflicts =
      overlapConflicts db workerId dateObj startTime endTime excludeEntryId ++
      availabilityConflicts db workerId dateObj startTime endTime ++
      maxHoursConflicts db workerId dateObj startTime endTime excludeEntryId := rfl

lemma mem_overlapConflicts_type {db workerId dateObj startTime endTime excludeEntryId c}
    (h : c ∈ overlapConflicts db workerId dateObj startTime endTime excludeEntryId) :
    c.type = ConflictType.TIME_OVERLAP := by
  rw [overlapConflicts_eq_map_filter] at h
  obtain ⟨e, -, rfl⟩ := List.mem_map.mp h
  rfl

lemma mem_availabilityConflicts_type {db workerId dateObj startTime endTime c}
    (h : c ∈ availabilityConflicts db workerId dateObj startTime endTime) :
    c.type = ConflictType.UNAVAILABLE := by
  unfold availabilityConflicts at h
  cases hf : findAvailability db workerId (getDay dateObj) <;> simp only [hf] at h
  · simp only [List.mem_singleton] at h
    subst h; rfl
  · split at h <;> simp only [List.mem_singleton, List.not_mem_nil] at h
    subst h; rfl

lemma mem_maxHoursConflicts_type {db workerId dateObj startTime endTime excludeEntryId c}
    (h : c ∈ maxHoursConflicts db workerId dateObj startTime endTime excludeEntryId) :
    c.type = ConflictType.MAX_HOURS_EXCEEDED := by
  unfold maxHoursConflicts at h
  cases hf : findWorker db workerId <;> simp only [hf] at h
  · simp only [List.not_mem_nil] at h
  · split at h <;> simp only [List.mem_singleton, List.not_mem_nil] at h
    subst h; rfl

lemma mem_maxHoursConflicts_severity {db workerId dateObj startTime endTime excludeEntryId c}
    (h : c ∈ maxHoursConflicts db workerId dateObj startTime endTime excludeEntryId) :
    c.severity = Severity.warning := by
  unfold maxHoursConflicts at h
  cases hf : findWorker db workerId <;> simp only [hf] at h
  · simp only [List.not_mem_nil] at h
  · split at h <;> simp only [List.mem_singleton, List.not_mem_nil] at h
    subst h; rfl

lemma filter_type_all {l : List ConflictDetail} {t : ConflictType}
    (h : ∀ c ∈ l, c.type = t) :
    l.filter (fun c => decide (c.type = t)) = l :=
  List.filter_eq_self.mpr (fun c hc => by simp only [h c hc, decide_eq_true_eq])

lemma filter_type_none {l : List ConflictDetail} {t u : ConflictType}
    (h : ∀ c ∈ l, c.type = t) (hne : t ≠ u) :
    l.filter (fun c => decide (c.type = u)) = [] :=
  List.filter_eq_nil_iff.mpr (fun c hc => by
    simp only [h c hc, decide_eq_true_eq]
    exact hne)

lemma overlapFindings_eq (db : Snapshot) (workerId : String) (dateObj : JSDate)
    (startTime endTime : String) (excludeEntryId : Option String) :
    overlapFindings db workerId dateObj startTime endTime excludeEntryId =
      overlapConflicts db workerId dateObj startTime endTime excludeEntryId := by
  unfold overlapFindings
  rw [conflicts_eq, List.filter_append, List.filter_append,
    filter_type_all (fun c hc => mem_overlapConflicts_type hc),
    filter_type_none (fun c hc => mem_availabilityConflicts_type hc) (by decide),
    filter_type_none (fun c hc => mem_maxHoursConflicts_type hc) (by decide)]
  simp

lemma unavailableFindings_eq (db : Snapshot) (workerId : String) (dateObj : JSDate)
    (startTime endTime : String) (excludeEntryId : Option String) :
    unavailableFindings db workerId dateObj startTime endTime excludeEntryId =
      availabilityConflicts db workerId dateObj startTime endTime := by
  unfold unavailableFindings
  rw [conflicts_eq, List.filter_append, List.filter_append,
    filter_type_all (fun c hc => mem_availabilityConflicts_type hc),
    filter_type_none (fun c hc => mem_overlapConflicts_type hc) (by decide),
    filter_type_none (fun c hc => mem_maxHoursConflicts_type hc) (by decide)]
  simp

lemma maxHoursFindings_eq (db : Snapshot) (workerId : String) (dateObj : JSDate)
    (startTime endTime : String) (excludeEntryId : Option String) :
    maxHoursFindings db workerId dateObj startTime endTime excludeEntryId =
      maxHoursConflicts db workerId dateObj startTime endTime excludeEntryId := by
  unfold maxHoursFindings
  rw [conflicts_eq, List.filter_append, List.filter_append,
    filter_type_all (fun c hc => mem_maxHoursConflicts_type hc),
    filter_type_none (fun c hc => mem_overlapConflicts_type hc) (by decide),
    filter_type_none (fun c hc => mem_availabilityConflicts_type hc) (by decide)]
  simp

/-- C1: for candidate and existing windows that are proper (`start < end` in
minutes), the three-disjunct overlap test of lines 90-93 is exactly the
half-open intersection test `newStart < exEnd AND newEnd > exStart`, and the
result's `TIME_OVERLAP` findings are exactly one detail per overlapping
same-day entry, in fetch order, each an error carrying that entry's id, start
and end. -/
theorem overlap_rule_correct :
    (∀ newStart newEnd exStart exEnd : Nat,
      newStart < newEnd → exStart < exEnd →
      (hasOverlap newStart newEnd exStart exEnd = true ↔
        (newStart < exEnd ∧ newEnd > exStart))) ∧
    (∀ db workerId dateObj startTime endTime excludeEntryId,
      overlapFindings db workerId dateObj startTime endTime excludeEntryId =
        ((findEntriesInRange db workerId (startOfDay dateObj) (endOfDay dateObj)
          excludeEntryId).filter (fun e =>
            hasOverlap (timeToMinutes startTime) (timeToMinutes endTime)
              (timeToMinutes e.startTime) (timeToMinutes e.endTime))).map overlapDetail) ∧
    (∀ e : ScheduleEntry,
      (overlapDetail e).severity = Severity.error ∧
      (overlapDetail e).details = some
        { existingEntryId := some e.id
          existingStart := some e.startTime
          existingEnd := some e.endTime
          availableStart := none
          availableEnd := none
          currentWeekHours := none
          maxHoursPerWeek := none
          newEntryHours := none }) := by
  refine ⟨?_, ?_, fun e => ⟨rfl, rfl⟩⟩
  · intro newStart newEnd exStart exEnd h1 h2
    simp only [hasOverlap, Bool.or_eq_true, Bool.and_eq_true, decide_eq_true_eq, ge_iff_le,
      gt_iff_lt]
    omega
  · intro db workerId dateObj startTime endTime excludeEntryId
    rw [overlapFindings_eq, overlapConflicts_eq_map_filter]

/-- Witness for C1 at a concrete overlapping pair: candidate 10:00-12:00 in
minutes against existing 11:00-13:00. -/
theorem overlap_rule_correct_witness :
    hasOverlap 600 720 660 780 = true ↔ (600 < 780 ∧ 720 > 660) :=
  overlap_rule_correct.1 600 720 660 780 (by decide) (by decide)

/-- C7: the three-disjunct overlap test is symmetric in the two windows
whenever each window satisfies `start ≤ end` (in particular for the proper
windows `start < end` the data model expects). -/
theorem overlap_test_symmetric :
    ∀ s1 e1 s2 e2 : Nat, s1 ≤ e1 → s2 ≤ e2 →
      hasOverlap s1 e1 s2 e2 = hasOverlap s2 e2 s1 e1 := by
  intro s1 e1 s2 e2 h1 h2
  rw [Bool.eq_iff_iff]
  simp only [hasOverlap, Bool.or_eq_true, Bool.and_eq_true, decide_eq_true_eq, ge_iff_le,
    gt_iff_lt]
  omega

/-- Witness for C7 at the concrete windows [08:00,09:00) and [08:20,10:00)
in minutes. -/
theorem overlap_test_symmetric_witness :
    hasOverlap 480 540 500 600 = hasOverlap 500 600 480 540 :=
  overlap_test_symmetric 480 540 500 600 (by decide) (by decide)

/-- C10: a zero-width candidate `[t,t)` (startTime = endTime) still produces a
`TIME_OVERLAP` error against every fetched same-day entry whose window
contains the instant `t` (`exStart ≤ t < exEnd`), and it does so via the
first disjunct of the overlap test. -/
theorem zero_width_candidate_overlap :
    ∀ db workerId dateObj startTime excludeEntryId e,
      e ∈ findEntriesInRange db workerId (startOfDay dateObj) (endOfDay dateObj)
        excludeEntryId →
      timeToMinutes e.startTime ≤ timeToMinutes startTime →
      timeToMinutes startTime < timeToMinutes e.endTime →
      ((decide (timeToMinutes startTime ≥ timeToMinutes e.startTime) &&
        decide (timeToMinutes startTime < timeToMinutes e.endTime)) = true) ∧
      overlapDetail e ∈
        (checkScheduleConflicts db workerId dateObj startTime startTime
          excludeEntryId).conflicts ∧
      (overlapDetail e).type = ConflictType.TIME_OVERLAP ∧
      (overlapDetail e).severity = Severity.error := by
  intro db workerId dateObj startTime excludeEntryId e he h1 h2
  refine ⟨by simp [h1, h2], ?_, rfl, rfl⟩
  rw [conflicts_eq]
  refine List.mem_append_left _ (List.mem_append_left _ ?_)
  rw [overlapConflicts_eq_map_filter]
  refine List.mem_map_of_mem _ (List.mem_filter.mpr ⟨he, ?_⟩)
  simp [hasOverlap, h1, h2]

/-- Concrete entry used by the C10 witness: Monday (epoch day 20360)
09:00-11:00. -/
def entryMon : ScheduleEntry :=
  { id := "e1", workerId := "w1", date := ⟨20360, 0⟩, startTime := "09:00", endTime := "11:00" }

/-- Concrete snapshot used by the C10 witness. -/
def dbMonEntry : Snapshot :=
  { scheduleEntries := [entryMon], workerAvailabilities := [], workers := [] }

/-- Witness for C10: the zero-width candidate 10:00-10:00 against the
09:00-11:00 entry is reported. -/
theorem zero_width_candidate_overlap_witness :
    overlapDetail entryMon ∈
      (checkScheduleConflicts dbMonEntry "w1" ⟨20360, 0⟩ "10:00" "10:00" none).conflicts :=
  (zero_width_candidate_overlap dbMonEntry "w1" ⟨20360, 0⟩ "10:00" none entryMon
    (by decide) (by decide) (by decide)).2.1

lemma availabilityConflicts_violation {db workerId dateObj startTime endTime a}
    (hf : findAvailability db workerId (getDay dateObj) = some a)
    (h : timeToMinutes startTime < timeToMinutes a.startTime ∨
      timeToMinutes endTime > timeToMinutes a.endTime) :
    availabilityConflicts db workerId dateObj startTime endTime =
      [unavailableErrorDetail a] := by
  simp only [availabilityConflicts, hf]
  rcases h with h | h <;> simp [h]

lemma availabilityConflicts_contained {db workerId dateObj startTime endTime a}
    (hf : findAvailability db workerId (getDay dateObj) = some a)
    (h1 : timeToMinutes a.startTime ≤ timeToMinutes startTime)
    (h2 : timeToMinutes endTime ≤ timeToMinutes a.endTime) :
    availabilityConflicts db workerId dateObj startTime endTime = [] := by
  simp only [availabilityConflicts, hf]
  simp [not_lt.mpr h1, not_lt.mpr h2]

lemma availabilityConflicts_missing {db workerId dateObj startTime endTime}
    (hf : findAvailability db workerId (getDay dateObj) = none) :
    availabilityConflicts db workerId dateObj startTime endTime =
      [unavailableWarningDetail (getDay dateObj)] := by
  simp only [availabilityConflicts, hf]

/-- C2: Rule B yields at most one finding; with a record for the candidate
weekday it yields exactly one `UNAVAILABLE` error carrying the declared window
when `newStart < availStart OR newEnd > availEnd`, and nothing under non-strict
containment (boundary-equal windows included); with no record it yields exactly
one `UNAVAILABLE` warning. -/
theorem availability_rule_correct :
    ∀ db workerId dateObj startTime endTime excludeEntryId,
      (unavailableFindings db workerId dateObj startTime endTime excludeEntryId).length ≤ 1 ∧
      (∀ a, findAvailability db workerId (getDay dateObj) = some a →
        ((timeToMinutes startTime < timeToMinutes a.startTime ∨
          timeToMinutes endTime > timeToMinutes a.endTime) →
          unavailableFindings db workerId dateObj startTime endTime excludeEntryId =
            [unavailableErrorDetail a] ∧
          (unavailableErrorDetail a).severity = Severity.error ∧
          (unavailableErrorDetail a).details = some
            { existingEntryId := none
              existingStart := none
              existingEnd := none
              availableStart := some a.startTime
              availableEnd := some a.endTime
              currentWeekHours := none
              maxHoursPerWeek := none
              newEntryHours := none }) ∧
        ((timeToMinutes a.startTime ≤ timeToMinutes startTime ∧
          timeToMinutes endTime ≤ timeToMinutes a.endTime) →
          unavailableFindings db workerId dateObj startTime endTime excludeEntryId = [])) ∧
      (findAvailability db workerId (getDay dateObj) = none →
        unavailableFindings db workerId dateObj startTime endTime excludeEntryId =
          [unavailableWarningDetail (getDay dateObj)] ∧
        (unavailableWarningDetail (getDay dateObj)).severity = Severity.warning) := by
  intro db workerId dateObj startTime endTime excludeEntryId
  have key := unavailableFindings_eq db workerId dateObj startTime endTime excludeEntryId
  refine ⟨?_, fun a hf => ⟨fun hviol => ⟨?_, rfl, rfl⟩, fun hin => ?_⟩, fun hf => ⟨?_, rfl⟩⟩
  · rw [key]
    cases hf : findAvailability db workerId (getDay dateObj) with
    | none => rw [availabilityConflicts_missing hf]; simp
    | some a =>
      rcases le_or_lt (timeToMinutes a.startTime) (timeToMinutes startTime) with h1 | h1
      · rcases le_or_lt (timeToMinutes endTime) (timeToMinutes a.endTime) with h2 | h2
        · rw [availabilityConflicts_contained hf h1 h2]; simp
        · rw [availabilityConflicts_violation hf (Or.inr h2)]; simp
      · rw [availabilityConflicts_violation hf (Or.inl h1)]; simp
  · rw [key, availabilityConflicts_violation hf hviol]
  · rw [key, availabilityConflicts_contained hf hin.1 hin.2]
  · rw [key, availabilityConflicts_missing hf]

/-- Availability record used by concrete snapshots: worker w1, Monday
(dayOfWeek 1), 08:00-17:00. -/
def availMon : WorkerAvailability :=
  { workerId := "w1", dayOfWeek := 1, startTime := "08:00", endTime := "17:00" }

/-- Concrete snapshot holding only `availMon`. -/
def dbAvail : Snapshot :=
  { scheduleEntries := [], workerAvailabilities := [availMon], workers := [] }

/-- Witness for C2: a 07:00-12:00 candidate on a Monday (epoch day 20360)
violates the declared 08:00-17:00 window and yields exactly the one error. -/
theorem availability_rule_correct_witness :
    unavailableFindings dbAvail "w1" ⟨20360, 0⟩ "07:00" "12:00" none =
      [unavailableErrorDetail availMon] :=
  (((availability_rule_correct dbAvail "w1" ⟨20360, 0⟩ "07:00" "12:00" none).2.1 availMon
    (by decide)).1 (by decide)).1

lemma maxHoursConflicts_noWorker {db workerId dateObj startTime endTime excludeEntryId}
    (hf : findWorker db workerId = none) :
    maxHoursConflicts db workerId dateObj startTime endTime excludeEntryId = [] := by
  simp only [maxHoursConflicts, hf]

lemma maxHoursConflicts_exceeded {db workerId dateObj startTime endTime excludeEntryId worker}
    (hf : findWorker db workerId = some worker)
    (h : weekTotalHours db workerId dateObj excludeEntryId + calculateHours startTime endTime >
      worker.maxHoursPerWeek) :
    maxHoursConflicts db workerId dateObj startTime endTime excludeEntryId =
      [maxHoursDetail (weekTotalHours db workerId dateObj excludeEntryId)
        worker.maxHoursPerWeek (calculateHours startTime endTime)] := by
  simp only [maxHoursConflicts, hf]
  simp [h]

lemma maxHoursConflicts_within {db workerId dateObj startTime endTime excludeEntryId worker}
    (hf : findWorker db workerId = some worker)
    (h : weekTotalHours db workerId dateObj excludeEntryId + calculateHours startTime endTime ≤
      worker.maxHoursPerWeek) :
    maxHoursConflicts db workerId dateObj startTime endTime excludeEntryId = [] := by
  simp only [maxHoursConflicts, hf]
  simp [not_lt.mpr h]

/-- C3: with a worker record, Rule C emits exactly one `MAX_HOURS_EXCEEDED`
warning iff the week total of `durationHours` (excluding `excludeEntryId`)
plus the candidate's own duration strictly exceeds the cap, carrying the
pre-candidate total, the cap and the candidate's duration; equality with the
cap and a missing worker record both yield nothing. -/
theorem max_hours_rule_correct :
    ∀ db workerId dateObj startTime endTime excludeEntryId,
      (findWorker db workerId = none →
        maxHoursFindings db workerId dateObj startTime endTime excludeEntryId = []) ∧
      (∀ worker, findWorker db workerId = some worker →
        ((weekTotalHours db workerId dateObj excludeEntryId +
            calculateHours startTime endTime > worker.maxHoursPerWeek) →
          maxHoursFindings db workerId dateObj startTime endTime excludeEntryId =
            [maxHoursDetail (weekTotalHours db workerId dateObj excludeEntryId)
              worker.maxHoursPerWeek (calculateHours startTime endTime)] ∧
          (maxHoursDetail (weekTotalHours db workerId dateObj excludeEntryId)
            worker.maxHoursPerWeek (calculateHours startTime endTime)).severity =
              Severity.warning ∧
          (maxHoursDetail (weekTotalHours db workerId dateObj excludeEntryId)
            worker.maxHoursPerWeek (calculateHours startTime endTime)).details = some
            { existingEntryId := none
              existingStart := none
              existingEnd := none
              availableStart := none
              availableEnd := none
              currentWeekHours := some (weekTotalHours db workerId dateObj excludeEntryId)
              maxHoursPerWeek := some worker.maxHoursPerWeek
              newEntryHours := some (calculateHours startTime endTime) }) ∧
        ((weekTotalHours db workerId dateObj excludeEntryId +
            calculateHours startTime endTime ≤ worker.maxHoursPerWeek) →
          maxHoursFindings db workerId dateObj startTime endTime excludeEntryId = [])) := by
  intro db workerId dateObj startTime endTime excludeEntryId
  have key := maxHoursFindings_eq db workerId dateObj startTime endTime excludeEntryId
  refine ⟨fun hf => ?_, fun worker hf => ⟨fun hover => ⟨?_, rfl, rfl⟩, fun hin => ?_⟩⟩
  · rw [key, maxHoursConflicts_noWorker hf]
  · rw [key, maxHoursConflicts_exceeded hf hover]
  · rw [key, maxHoursConflicts_within hf hin]

/-- Worker record used by the C3 witness: cap of 12 hours per week. -/
def workerW : Worker :=
  { id := "w1", maxHoursPerWeek := 12 }

/-- Concrete snapshot for the C3 witness: 10 scheduled hours on Monday
(epoch day 20360), cap 12. -/
def dbMaxHours : Snapshot :=
  { scheduleEntries :=
      [{ id := "e1", workerId := "w1", date := ⟨20360, 0⟩, startTime := "08:00",
         endTime := "18:00" }]
    workerAvailabilities := []
    workers := [workerW] }

/-- Witness for C3: a 3-hour candidate on Tuesday (epoch day 20361) projects
13 hours against the 12-hour cap and yields exactly the one warning. -/
theorem max_hours_rule_correct_witness :
    maxHoursFindings dbMaxHours "w1" ⟨20361, 0⟩ "09:00" "12:00" none =
      [maxHoursDetail (weekTotalHours dbMaxHours "w1" ⟨20361, 0⟩ none)
        workerW.maxHoursPerWeek (calculateHours "09:00" "12:00")] := by
  have hweek : weekTotalHours dbMaxHours "w1" ⟨20361, 0⟩ none = 10 := by
    have h1 : findEntriesInRange dbMaxHours "w1" (getWeekBounds ⟨20361, 0⟩).startOfWeek
        (getWeekBounds ⟨20361, 0⟩).endOfWeek none = dbMaxHours.scheduleEntries := by decide
    simp only [weekTotalHours]
    rw [h1]
    simp only [dbMaxHours, List.foldl_cons, List.foldl_nil, calculateHours,
      (by decide : timeToMinutes "08:00" = 480), (by decide : timeToMinutes "18:00" = 1080)]
    norm_num
  have hcalc : calculateHours "09:00" "12:00" = 3 := by
    simp only [calculateHours, (by decide : timeToMinutes "09:00" = 540),
      (by decide : timeToMinutes "12:00" = 720)]
    norm_num
  exact (((max_hours_rule_correct dbMaxHours "w1" ⟨20361, 0⟩ "09:00" "12:00" none).2 workerW
    (by decide)).1 (by rw [hweek, hcalc]; simp only [workerW]; norm_num)).1

/-- C5: for any date (with a valid time-of-day), `getWeekBounds` returns the
Monday 00:00:00.000 of that date's week (the previous Monday when the input is
a Sunday or any other weekday) and the following Sunday 23:59:59.999, and the
input timestamp lies within the returned bounds. -/
theorem week_bounds_correct :
    ∀ d : JSDate, 0 ≤ d.msOfDay → d.msOfDay < 86400000 →
      getDay (getWeekBounds d).startOfWeek = 1 ∧
      (getWeekBounds d).startOfWeek.msOfDay = 0 ∧
      getDay (getWeekBounds d).endOfWeek = 0 ∧
      (getWeekBounds d).endOfWeek.day = (getWeekBounds d).startOfWeek.day + 6 ∧
      (getWeekBounds d).endOfWeek.msOfDay = 86399999 ∧
      (getWeekBounds d).startOfWeek.day ≤ d.day ∧
      d.day ≤ (getWeekBounds d).endOfWeek.day ∧
      toMillis (getWeekBounds d).startOfWeek ≤ toMillis d ∧
      toMillis d ≤ toMillis (getWeekBounds d).endOfWeek := by
  intro d h0 h1
  simp only [getWeekBounds, getDay, toMillis]
  by_cases hw : (d.day + 4) % 7 = 0
  · simp only [if_pos hw, true_and, and_true]
    omega
  · simp only [if_neg hw, true_and, and_true]
    omega

/-- Witness for C5 at the concrete Sunday epoch day 20366: the week starts on
the previous Monday (and the input lies inside the bounds). -/
theorem week_bounds_correct_witness :
    getDay (getWeekBounds ⟨20366, 0⟩).startOfWeek = 1 ∧
    toMillis (getWeekBounds ⟨20366, 0⟩).startOfWeek ≤ toMillis ⟨20366, 0⟩ :=
  ⟨(week_bounds_correct ⟨20366, 0⟩ (by decide) (by decide)).1,
   (week_bounds_correct ⟨20366, 0⟩ (by decide) (by decide)).2.2.2.2.2.2.2.1⟩

/-- The Monday that starts the Monday-through-Sunday week containing an
absolute day (spec section 8 phrasing of "same week"). -/
def mondayOf (day : Int) : Int :=
  day - (day + 3) % 7

lemma getWeekBounds_eq_mondayOf (d : JSDate) :
    getWeekBounds d =
      { startOfWeek := ⟨mondayOf d.day, 0⟩, endOfWeek := ⟨mondayOf d.day + 6, 86399999⟩ } := by
  simp only [getWeekBounds, getDay, mondayOf]
  by_cases hw : (d.day + 4) % 7 = 0
  · simp only [if_pos hw, WeekBounds.mk.injEq, JSDate.mk.injEq, true_and, and_true]
    omega
  · simp only [if_neg hw, WeekBounds.mk.injEq, JSDate.mk.injEq, true_and, and_true]
    omega

lemma mondayOf_idem (day : Int) : mondayOf (mondayOf day) = mondayOf day := by
  simp only [mondayOf]
  omega

/-- C9: `getWeekBounds` is constant on Monday-through-Sunday weeks: any two
dates with the same week-Monday get identical bounds, and applying it to its
own `startOfWeek` reproduces the same bounds. -/
theorem week_bounds_constant_on_week :
    (∀ d1 d2 : JSDate, mondayOf d1.day = mondayOf d2.day →
      getWeekBounds d1 = getWeekBounds d2) ∧
    (∀ d : JSDate, getWeekBounds ((getWeekBounds d).startOfWeek) = getWeekBounds d) := by
  constructor
  · intro d1 d2 h
    rw [getWeekBounds_eq_mondayOf, getWeekBounds_eq_mondayOf, h]
  · intro d
    rw [getWeekBounds_eq_mondayOf d, getWeekBounds_eq_mondayOf]
    simp only [WeekBounds.mk.injEq, JSDate.mk.injEq, mondayOf_idem]

/-- Witness for C9: the Monday and the Sunday of one concrete week (epoch days
20360 and 20366) get the same bounds. -/
theorem week_bounds_constant_on_week_witness :
    getWeekBounds ⟨20360, 0⟩ = getWeekBounds ⟨20366, 500⟩ :=
  week_bounds_constant_on_week.1 ⟨20360, 0⟩ ⟨20366, 500⟩ (by decide)

/-- C8: the evaluator is a pure function of the data snapshot and the
candidate: evaluations at equal snapshots and equal candidate arguments agree
on the whole result, on the conflicts list, and on both derived booleans. -/
theorem evaluator_deterministic :
    ∀ (db1 db2 : Snapshot) (w1 w2 : String) (d1 d2 : JSDate)
      (s1 s2 t1 t2 : String) (x1 x2 : Option String),
      db1 = db2 → w1 = w2 → d1 = d2 → s1 = s2 → t1 = t2 → x1 = x2 →
      checkScheduleConflicts db1 w1 d1 s1 t1 x1 = checkScheduleConflicts db2 w2 d2 s2 t2 x2 ∧
      (checkScheduleConflicts db1 w1 d1 s1 t1 x1).conflicts =
        (checkScheduleConflicts db2 w2 d2 s2 t2 x2).conflicts ∧
      (checkScheduleConflicts db1 w1 d1 s1 t1 x1).hasConflict =
        (checkScheduleConflicts db2 w2 d2 s2 t2 x2).hasConflict ∧
      (checkScheduleConflicts db1 w1 d1 s1 t1 x1).hasWarning =
        (checkScheduleConflicts db2 w2 d2 s2 t2 x2).hasWarning := by
  rintro db1 db2 w1 w2 d1 d2 s1 s2 t1 t2 x1 x2 rfl rfl rfl rfl rfl rfl
  exact ⟨rfl, rfl, rfl, rfl⟩

/-- Witness for C8 at a concrete snapshot and candidate. -/
theorem evaluator_deterministic_witness :
    checkScheduleConflicts dbAvail "w1" ⟨20360, 0⟩ "08:00" "17:00" none =
      checkScheduleConflicts dbAvail "w1" ⟨20360, 0⟩ "08:00" "17:00" none :=
  (evaluator_deterministic dbAvail dbAvail "w1" "w1" ⟨20360, 0⟩ ⟨20360, 0⟩
    "08:00" "08:00" "17:00" "17:00" none none rfl rfl rfl rfl rfl rfl).1

lemma hasConflict_eq_any (db : Snapshot) (workerId : String) (dateObj : JSDate)
    (startTime endTime : String) (excludeEntryId : Option String) :
    (checkScheduleConflicts db workerId dateObj startTime endTime excludeEntryId).hasConflict =
      (checkScheduleConflicts db workerId dateObj startTime endTime
        excludeEntryId).conflicts.any (fun c => decide (c.severity = Severity.error)) := rfl

lemma hasWarning_eq_any (db : Snapshot) (workerId : String) (dateObj : JSDate)
    (startTime endTime : String) (excludeEntryId : Option String) :
    (checkScheduleConflicts db workerId dateObj startTime endTime excludeEntryId).hasWarning =
      (checkScheduleConflicts db workerId dateObj startTime endTime
        excludeEntryId).conflicts.any (fun c => decide (c.severity = Severity.warning)) := rfl

/-- Counterexample for C6 as stated: worker w1 has zero availability records,
yet a candidate overlapping an existing same-day entry yields
`hasConflict = true` (the claim asserts `hasConflict == false` for any
candidate window). -/
theorem missing_availability_counterexample :
    dbMonEntry.workerAvailabilities = [] ∧
    findAvailability dbMonEntry "w1" (getDay ⟨20360, 0⟩) = none ∧
    (checkScheduleConflicts dbMonEntry "w1" ⟨20360, 0⟩ "10:00" "12:00" none).hasConflict = true ∧
    (checkScheduleConflicts dbMonEntry "w1" ⟨20360, 0⟩ "10:00" "12:00" none).hasWarning = true :=
  ⟨rfl, rfl, by decide, by decide⟩

/-- C6 (amended): with no availability record for the candidate weekday the
result always has `hasWarning = true` with the `UNAVAILABLE` warning among its
conflicts, and `hasConflict = false` holds provided no fetched same-day entry
overlaps the candidate window. -/
theorem missing_availability_amended :
    ∀ db workerId dateObj startTime endTime excludeEntryId,
      findAvailability db workerId (getDay dateObj) = none →
      ((checkScheduleConflicts db workerId dateObj startTime endTime
          excludeEntryId).hasWarning = true ∧
        unavailableWarningDetail (getDay dateObj) ∈
          (checkScheduleConflicts db workerId dateObj startTime endTime
            excludeEntryId).conflicts) ∧
      ((∀ e ∈ findEntriesInRange db workerId (startOfDay dateObj) (endOfDay dateObj)
          excludeEntryId,
          hasOverlap (timeToMinutes startTime) (timeToMinutes endTime)
            (timeToMinutes e.startTime) (timeToMinutes e.endTime) = false) →
        (checkScheduleConflicts db workerId dateObj startTime endTime
          excludeEntryId).hasConflict = false) := by
  intro db workerId dateObj startTime endTime excludeEntryId hf
  have hmem : unavailableWarningDetail (getDay dateObj) ∈
      (checkScheduleConflicts db workerId dateObj startTime endTime
        excludeEntryId).conflicts := by
    rw [conflicts_eq]
    refine List.mem_append_left _ (List.mem_append_right _ ?_)
    rw [availabilityConflicts_missing hf]
    exact List.mem_singleton_self _
  refine ⟨⟨?_, hmem⟩, fun hno => ?_⟩
  · rw [hasWarning_eq_any, List.any_eq_true]
    exact ⟨unavailableWarningDetail (getDay dateObj), hmem, rfl⟩
  · have hA : overlapConflicts db workerId dateObj startTime endTime excludeEntryId = [] := by
      rw [overlapConflicts_eq_map_filter,
        List.filter_eq_nil_iff.mpr (fun e he => by simp [hno e he])]
      rfl
    rw [hasConflict_eq_any, conflicts_eq, hA, availabilityConflicts_missing hf]
    rw [List.any_eq_false]
    intro c hc
    simp only [List.nil_append, List.mem_append, List.mem_singleton] at hc
    rcases hc with hc | hc
    · subst hc; simp [unavailableWarningDetail]
    · simp [mem_maxHoursConflicts_severity hc]

/-- The empty snapshot, used by concrete witnesses. -/
def dbEmptySnap : Snapshot :=
  { scheduleEntries := [], workerAvailabilities := [], workers := [] }

/-- Witness for the amended C6: against an empty snapshot the result is
warning-only. -/
theorem missing_availability_amended_witness :
    (checkScheduleConflicts dbEmptySnap "w1" ⟨20360, 0⟩ "10:00" "12:00" none).hasWarning = true ∧
    (checkScheduleConflicts dbEmptySnap "w1" ⟨20360, 0⟩ "10:00" "12:00" none).hasConflict = false := by
  have h := missing_availability_amended dbEmptySnap "w1" ⟨20360, 0⟩ "10:00" "12:00" none rfl
  exact ⟨h.1.1, h.2 (by intro e he; simp [findEntriesInRange, dbEmptySnap] at he)⟩

lemma bulkLoop_index_lb {db : Snapshot} :
    ∀ (l : List Candidate) (i : Nat) (b : BulkConflict), b ∈ bulkLoop db i l → i ≤ b.index := by
  intro l
  induction l with
  | nil => intro i b h; simp [bulkLoop] at h
  | cons e rest ih =>
    intro i b h
    simp only [bulkLoop] at h
    by_cases hf : flagged (evalCandidate db e)
    · rw [if_pos hf] at h
      rcases List.mem_cons.mp h with rfl | h
      · exact Nat.le.refl
      · exact Nat.le_of_succ_le (ih (i + 1) b h)
    · rw [if_neg hf] at h
      exact Nat.le_of_succ_le (ih (i + 1) b h)

lemma bulkLoop_pairwise {db : Snapshot} :
    ∀ (l : List Candidate) (i : Nat),
      List.Pairwise (fun a b => a < b) ((bulkLoop db i l).map BulkConflict.index) := by
  intro l
  induction l with
  | nil => intro i; simp [bulkLoop]
  | cons e rest ih =>
    intro i
    simp only [bulkLoop]
    by_cases hf : flagged (evalCandidate db e)
    · rw [if_pos hf]
      simp only [List.map_cons]
      rw [List.pairwise_cons]
      refine ⟨fun y hy => ?_, ih (i + 1)⟩
      obtain ⟨b, hb, rfl⟩ := List.mem_map.mp hy
      exact Nat.lt_of_succ_le (bulkLoop_index_lb rest (i + 1) b hb)
    · rw [if_neg hf]
      exact ih (i + 1)

lemma bulkLoop_sound {db : Snapshot} :
    ∀ (l : List Candidate) (i : Nat) (b : BulkConflict), b ∈ bulkLoop db i l →
      ∃ j, ∃ hj : j < l.length, b.index = i + j ∧
        b.result = evalCandidate db (l.get ⟨j, hj⟩) ∧ flagged b.result = true := by
  intro l
  induction l with
  | nil => intro i b h; simp [bulkLoop] at h
  | cons e rest ih =>
    intro i b h
    simp only [bulkLoop] at h
    by_cases hf : flagged (evalCandidate db e)
    · rw [if_pos hf] at h
      rcases List.mem_cons.mp h with rfl | h
      · exact ⟨0, Nat.succ_pos rest.length, (Nat.add_zero i).symm, rfl, hf⟩
      · obtain ⟨j, hj, h1, h2, h3⟩ := ih (i + 1) b h
        exact ⟨j + 1, Nat.succ_lt_succ hj, by omega, h2, h3⟩
    · rw [if_neg hf] at h
      obtain ⟨j, hj, h1, h2, h3⟩ := ih (i + 1) b h
      exact ⟨j + 1, Nat.succ_lt_succ hj, by omega, h2, h3⟩

lemma bulkLoop_complete {db : Snapshot} :
    ∀ (l : List Candidate) (i j : Nat) (hj : j < l.length),
      flagged (evalCandidate db (l.get ⟨j, hj⟩)) = true →
      { index := i + j, result := evalCandidate db (l.get ⟨j, hj⟩) } ∈ bulkLoop db i l := by
  intro l
  induction l with
  | nil => intro i j hj hf; exact absurd hj (Nat.not_lt_zero j)
  | cons e rest ih =>
    intro i j hj hf
    simp only [bulkLoop]
    cases j with
    | zero =>
      have hf2 : flagged (evalCandidate db e) = true := hf
      rw [if_pos hf2]
      exact List.mem_cons_self _ _
    | succ j =>
      have h2 := ih (i + 1) j (Nat.lt_of_succ_lt_succ hj) hf
      have hidx : i + (j + 1) = (i + 1) + j := by omega
      rw [hidx]
      by_cases hf1 : flagged (evalCandidate db e)
      · rw [if_pos hf1]
        exact List.mem_cons_of_mem _ h2
      · rw [if_neg hf1]
        exact h2

/-- C4: the bulk evaluator returns, in strictly increasing index order, exactly
the candidates (evaluated with no `excludeEntryId`) whose result is flagged
(`hasConflict || hasWarning`), each paired with its zero-based input
position; unflagged candidates are omitted. -/
theorem bulk_evaluator_correct :
    ∀ (db : Snapshot) (entries : List Candidate),
      List.Pairwise (fun a b => a < b)
        ((checkBulkScheduleConflicts db entries).map BulkConflict.index) ∧
      (∀ b ∈ checkBulkScheduleConflicts db entries,
        ∃ h : b.index < entries.length,
          b.result = evalCandidate db (entries.get ⟨b.index, h⟩) ∧
          flagged b.result = true) ∧
      (∀ j (hj : j < entries.length),
        flagged (evalCandidate db (entries.get ⟨j, hj⟩)) = true →
        { index := j, result := evalCandidate db (entries.get ⟨j, hj⟩) } ∈
          checkBulkScheduleConflicts db entries) := by
  intro db entries
  refine ⟨bulkLoop_pairwise entries 0, fun b hb => ?_, fun j hj hf => ?_⟩
  · obtain ⟨j, hj, h1, h2, h3⟩ := bulkLoop_sound entries 0 b hb
    rw [Nat.zero_add] at h1
    subst h1
    exact ⟨hj, h2, h3⟩
  · have h := bulkLoop_complete entries 0 j hj hf
    rw [Nat.zero_add] at h
    exact h

/-- Candidate used by the C4 witness. -/
def candA : Candidate :=
  { workerId := "w1", date := ⟨20360, 0⟩, startTime := "09:00", endTime := "10:00" }

/-- Witness for C4: against the empty snapshot the single candidate is flagged
(missing-availability warning) and appears at index 0. -/
theorem bulk_evaluator_correct_witness :
    { index := 0, result := evalCandidate dbEmptySnap ([candA].get ⟨0, Nat.one_pos⟩) } ∈
      checkBulkScheduleConflicts dbEmptySnap [candA] :=
  (bulk_evaluator_correct dbEmptySnap [candA]).2.2 0 Nat.one_pos (by decide)

end ConflictDetection
